import Mathlib

/-!
Verification development for the cerina-protocol-foundry repository.

The checked tree contains the React frontend (App.tsx, HumanReview.tsx,
types/index.ts) and the README, which describes the LangGraph backend
nodes (drafter, reviewer, supervisor_synthesis, supervisor_router,
human_review_halt). The backend python sources themselves are not in the
checked tree, so the engine side operations are modelled from the
specification; each such definition carries a doc comment starting with
the words Modelled from the spec. Frontend definitions are translated
directly from the TypeScript sources.
-/

namespace Cerina

/-- Review record, translated from frontend src types index.ts lines 2 to 7.
The TypeScript field type of score is number; scores in this system are
integers, embedded as Int. -/
structure Review where
  agent : String
  notes : String
  score : Int
  reasoning : String
deriving DecidableEq, Repr

/-- Field names of the Review interface, in declaration order, transcribed
from frontend src types index.ts lines 2 to 7. -/
def Review.fieldNames : List String :=
  ["agent", "notes", "score", "reasoning"]

/-- Score summary with a safety and a clinical component, translated from
the inline scores object of GraphState in frontend src types index.ts. -/
structure ScoreSummary where
  safety : Int
  clinical : Int
deriving DecidableEq, Repr

/-- Resume request payload as built by the HumanReview component and
consumed by the resume endpoint: approved, feedback, and an optional
edited draft. -/
structure ResumePayload where
  approved : Bool
  feedback : String
  edited_draft : Option String
deriving DecidableEq, Repr

/-- Field names of the resume payload, in the order the approve handler
assembles them in HumanReview.tsx lines 28 to 36. -/
def ResumePayload.fieldNames : List String :=
  ["approved", "feedback", "edited_draft"]

namespace Frontend

/-- GraphState, translated from frontend src types index.ts lines 9 to 24.
The open metadata mapping whose values have TypeScript type any is
embedded as an association list from keys to strings. -/
structure GraphState where
  draft : String
  draft_history : List String
  reviews : List Review
  scores : ScoreSummary
  iteration_count : Nat
  supervisor_feedback : String
  user_intent : String
  error : Option String
  metadata : Option (List (String × String))
deriving DecidableEq, Repr

/-- Field names of the GraphState interface, in declaration order,
transcribed from frontend src types index.ts lines 9 to 24. -/
def GraphState.fieldNames : List String :=
  ["draft", "draft_history", "reviews", "scores", "iteration_count",
   "supervisor_feedback", "user_intent", "error", "metadata"]

/-- Payload constructed by handleApprove in HumanReview.tsx lines 23 to 46:
feedback defaults to a fixed sentence when the box is empty, and
edited_draft is attached exactly when the edited text differs from the
draft of the halted state. -/
def handleApprovePayload (editedDraft feedback stateDraft : String) :
    ResumePayload :=
  { approved := true
    feedback :=
      if feedback = "" then "Approved without additional feedback" else feedback
    edited_draft :=
      if editedDraft = stateDraft then none else some editedDraft }

/-- Payload constructed by handleReject in HumanReview.tsx lines 48 to 64:
only approved and feedback are sent; the edited text kept by the
component is not referenced by this handler. -/
def handleRejectPayload (feedback : String) : ResumePayload :=
  { approved := false
    feedback :=
      if feedback = "" then "Rejected without specific feedback" else feedback
    edited_draft := none }

/-- Model of the JavaScript string trim operation used by handleInvoke:
removes leading and trailing whitespace characters. -/
def jsTrim (s : String) : String :=
  String.mk
    (((s.data.dropWhile Char.isWhitespace).reverse.dropWhile
        Char.isWhitespace).reverse)

/-- The request issued by handleInvoke in App.tsx lines 111 to 160: none
when the trimmed intent is empty, because the handler returns after an
alert and sends nothing, otherwise the trimmed intent is posted. -/
def handleInvokeRequest (intent : String) : Option String :=
  if jsTrim intent = "" then none else some (jsTrim intent)

/-- Raw task entry as delivered by the tasks endpoint and consumed by
fetchTasks; intent and iterations may be absent. -/
structure RawTask where
  status : String
  intent : Option String
  created_at : String
  iterations : Option Nat
deriving DecidableEq, Repr

/-- Task summary, translated from frontend src types index.ts
lines 46 to 52. -/
structure Task where
  thread_id : String
  status : String
  intent : String
  created_at : String
  iterations : Nat
deriving DecidableEq, Repr

/-- Ordering used by the sort call in fetchTasks: the JavaScript
comparator returns the time value of b minus the time value of a, which
orders tasks by descending creation time. Date parsing is abstracted by
the dateTime argument. -/
def taskDescending (dateTime : String → Nat) (a b : Task) : Prop :=
  dateTime b.created_at ≤ dateTime a.created_at

instance (dateTime : String → Nat) : DecidableRel (taskDescending dateTime) :=
  fun a b =>
    inferInstanceAs (Decidable (dateTime b.created_at ≤ dateTime a.created_at))

/-- fetchTasks from App.tsx lines 89 to 108: each entry of the tasks
object is mapped to a Task, a missing or empty intent defaults to the
word Unknown and missing iterations default to 0, then the list is
sorted by descending creation time. -/
def fetchTasks (dateTime : String → Nat)
    (entries : List (String × RawTask)) : List Task :=
  (entries.map fun p =>
    { thread_id := p.1
      status := p.2.status
      intent :=
        match p.2.intent with
        | some s => if s = "" then "Unknown" else s
        | none => "Unknown"
      created_at := p.2.created_at
      iterations := p.2.iterations.getD 0 }).insertionSort
    (taskDescending dateTime)

/-- Statuses at which the polling loop in App.tsx line 65 clears its
interval. -/
def stopStatuses : List String :=
  ["completed", "halted", "error", "rejected"]

/-- Outcome of one polling tick: either a response carrying a status
string, or a failed request. -/
inductive PollOutcome where
  | ok (status : String)
  | failed
deriving DecidableEq, Repr

/-- Number of state requests issued by the polling loop of startPolling in
App.tsx lines 38 to 86, given the sequence of tick outcomes. The counter
is incremented at the start of each tick and the request is then issued;
a response whose status is in stopStatuses clears the interval, and a
failed request clears it once more than ten ticks have run. -/
def pollRun (count : Nat) : List PollOutcome → Nat
  | [] => 0
  | o :: rest =>
    1 +
      match o with
      | .ok st =>
        if stopStatuses.contains st then 0 else pollRun (count + 1) rest
      | .failed =>
        if count + 1 > 10 then 0 else pollRun (count + 1) rest

end Frontend

namespace Spec

/-- Modelled from the spec: the human decision attached to the state by a
resume call, section 3 of the spec, with fields approved, feedback and
optional edited_draft. The backend graph sources are not in the checked
tree. -/
structure HumanDecision where
  approved : Bool
  feedback : String
  edited_draft : Option String
deriving DecidableEq, Repr

/-- Modelled from the spec: the engine GraphState of section 3, the unit
of persistence threaded through every node. The backend graph sources are
not in the checked tree. -/
structure GraphState where
  user_intent : String
  draft : String
  draft_history : List String
  reviews : List Review
  scores : ScoreSummary
  supervisor_feedback : String
  iteration_count : Nat
  human_decision : Option HumanDecision
  error : Option String
  metadata : List (String × String)
deriving DecidableEq, Repr

/-- Modelled from the spec: the state created by invoke, section 6; all
collections start empty and the counter starts at zero. -/
def init (intent : String) : GraphState :=
  { user_intent := intent
    draft := ""
    draft_history := []
    reviews := []
    scores := { safety := 0, clinical := 0 }
    supervisor_feedback := ""
    iteration_count := 0
    human_decision := none
    error := none
    metadata := [] }

/-- A review passes validation when its score is an integer from 0 to 10,
sections 3 and 4.2 of the spec. -/
def validReview (r : Review) : Prop :=
  0 ≤ r.score ∧ r.score ≤ 10

instance : DecidablePred validReview := fun r =>
  inferInstanceAs (Decidable (0 ≤ r.score ∧ r.score ≤ 10))

/-- Modelled from the spec: the state transitions of the workflow engine,
sections 4.1, 4.2, 4.3, 4.5 and 7. Each constructor carries the data
produced by the corresponding node or external call. The backend graph
sources are not in the checked tree. -/
inductive Event where
  | drafter (d : String)
  | review (safetyReview clinicalReview : Review)
  | synthesize (fb : String)
  | agentFail (msg : String)
  | resume (p : ResumePayload)
deriving DecidableEq, Repr

/-- Modelled from the spec: effect of one transition on the GraphState.
The Drafter appends the produced draft to draft_history and sets it as
draft; the iteration counter counts revision cycles, so it is incremented
when the pass revises an existing draft, section 4.1 together with the
README statement, part_001 line 63, that iteration_count tracks the
number of revision cycles; an empty production is a generation failure
that sets error. The ReviewerPool replaces reviews wholesale with the two
new entries, safety first, and recomputes scores, or sets error when
validation fails, section 4.2. Synthesis stores a returned non-empty
feedback string and clears error on a successfully completed cycle, or
sets error, sections 3 and 4.3. An agent failure sets error, section 7.
Resume sets human_decision and, when a present edited_draft differs from
draft, appends it to draft_history and sets it as draft before the
decision is evaluated, section 4.5. -/
def applyEvent (s : GraphState) (e : Event) : GraphState :=
  match e with
  | .drafter d =>
    if d = "" then { s with error := some "draft generation failed" }
    else if s.draft = "" then
      { s with draft := d, draft_history := s.draft_history ++ [d] }
    else
      { s with draft := d
               draft_history := s.draft_history ++ [d]
               iteration_count := s.iteration_count + 1 }
  | .review rs rc =>
    if validReview rs ∧ validReview rc then
      { s with reviews := [rs, rc]
               scores := { safety := rs.score, clinical := rc.score } }
    else
      { s with error := some "review validation failed" }
  | .synthesize fb =>
    if fb = "" then { s with error := some "synthesis failed" }
    else { s with supervisor_feedback := fb, error := none }
  | .agentFail m => { s with error := some m }
  | .resume p =>
    let s1 :=
      match p.edited_draft with
      | some e =>
        if e = s.draft then s
        else { s with draft := e, draft_history := s.draft_history ++ [e] }
      | none => s
    { s1 with
        human_decision :=
          some { approved := p.approved
                 feedback := p.feedback
                 edited_draft := p.edited_draft } }

/-- Reachable engine states: the initial state of any invoke, closed under
transitions. -/
inductive Reachable : GraphState → Prop where
  | init (intent : String) : Reachable (init intent)
  | step {s : GraphState} (e : Event) : Reachable s → Reachable (applyEvent s e)

/-- Route decisions of the supervisor router, section 4.4 of the spec. -/
inductive Route where
  | revise
  | halt
  | finalize
  | rejected
deriving DecidableEq, Repr

/-- True when the error field holds a non-empty message. -/
def hasError (s : GraphState) : Bool :=
  match s.error with
  | some m => if m = "" then false else true
  | none => false

/-- Modelled from the spec: the pure routing function of section 4.4,
seven rules evaluated in order with first match winning. The backend
graph sources are not in the checked tree; the README description of
supervisor_router, part_001 lines 79 to 93, lists the same conditions in
the same order. -/
def supervisor_router (s : GraphState) : Route :=
  if hasError s then .halt
  else
    match s.human_decision with
    | some hd => if hd.approved then .finalize else .rejected
    | none =>
      if 9 ≤ s.scores.safety ∧ 8 ≤ s.scores.clinical then .halt
      else if 3 ≤ s.iteration_count ∨ s.scores.safety < 6 then .halt
      else if s.scores.safety < 8 ∨ s.scores.clinical < 7 then .revise
      else .halt

/-- Thread lifecycle statuses, section 3 of the spec. -/
inductive ThreadStatus where
  | created
  | running
  | halted
  | resuming
  | completed
  | rejected
  | error
deriving DecidableEq, Repr

/-- Modelled from the spec: the ThreadRecord of section 3. The backend
sources are not in the checked tree. -/
structure ThreadRecord where
  thread_id : String
  status : ThreadStatus
  state : GraphState
  created_at : Nat
  last_update : Nat
deriving DecidableEq, Repr

/-- Caller errors of the external interface, sections 6 and 7. -/
inductive ApiError where
  | invalidInput
  | notFound
  | invalidState
deriving DecidableEq, Repr

/-- Modelled from the spec: invoke of section 6 fails with InvalidInput on
an empty intent, creating nothing, and otherwise appends a running
ThreadRecord with a fresh identifier to the store. The backend sources
are not in the checked tree. -/
def invoke (intent : String) (newId : String) (now : Nat)
    (store : List ThreadRecord) :
    Except ApiError (String × List ThreadRecord) :=
  if intent = "" then .error .invalidInput
  else
    .ok (newId,
      store ++
        [{ thread_id := newId
           status := .running
           state := init intent
           created_at := now
           last_update := now }])

/-- Draft history invariant: while no draft exists the history is empty
and the counter is zero; once a draft exists the history length is one
more than the iteration counter and the draft is the last history
element. -/
def histInv (s : GraphState) : Prop :=
  (s.draft = "" → s.draft_history = [] ∧ s.iteration_count = 0) ∧
  (s.draft ≠ "" →
    s.draft_history.length = 1 + s.iteration_count ∧
    s.draft_history.getLast? = some s.draft)

/-- An event effectively edits the draft when it is a resume whose
edited_draft is present and differs from the current draft. -/
def effEdit (s : GraphState) (e : Event) : Bool :=
  match e with
  | .resume p =>
    match p.edited_draft with
    | some d => if d = s.draft then false else true
    | none => false
  | _ => false

end Spec

/-- Sample halted state used by the theorems about claim C2: one draft D
produced, awaiting human review. -/
def sampleHalted : Spec.GraphState :=
  { user_intent := "i"
    draft := "D"
    draft_history := ["D"]
    reviews := []
    scores := { safety := 9, clinical := 8 }
    supervisor_feedback := "fb"
    iteration_count := 0
    human_decision := none
    error := none
    metadata := [] }

/-- State used by the counterexample to claim C5: a first draft followed
by a resume carrying an edited draft, which appends to draft_history
without touching iteration_count. -/
def editedResumeState : Spec.GraphState :=
  Spec.applyEvent (Spec.applyEvent (Spec.init "i") (Spec.Event.drafter "d1"))
    (Spec.Event.resume { approved := false, feedback := "bad", edited_draft := some "d2" })

/-- State used by the witness of claim C1: error set while every other
routing condition is simultaneously true. -/
def erroredState : Spec.GraphState :=
  { user_intent := "i"
    draft := "D"
    draft_history := ["D"]
    reviews := []
    scores := { safety := 9, clinical := 9 }
    supervisor_feedback := "fb"
    iteration_count := 5
    human_decision := some { approved := true, feedback := "ok", edited_draft := none }
    error := some "boom"
    metadata := [] }

/-- Reachable state with a concrete review batch, used by the witness of
claim C7. -/
def reviewedState : Spec.GraphState :=
  Spec.applyEvent (Spec.applyEvent (Spec.init "i") (Spec.Event.drafter "d1"))
    (Spec.Event.review
      { agent := "SafetyGuardian", notes := "safe", score := 9, reasoning := "ok" }
      { agent := "ClinicalCritic", notes := "sound", score := 8, reasoning := "ok" })


namespace Spec

/-- Helper: a transition either leaves the review list untouched or, for a
review event passing validation, replaces it wholesale with the two fresh
entries. -/
theorem applyEvent_reviews_cases (s : GraphState) (e : Event) :
    (applyEvent s e).reviews = s.reviews ∨
    ∃ rs rc, e = Event.review rs rc ∧ validReview rs ∧ validReview rc ∧
      (applyEvent s e).reviews = [rs, rc] := by
  cases e with
  | drafter d =>
    left
    simp only [applyEvent]
    split
    · rfl
    · split <;> rfl
  | review rs rc =>
    by_cases h : validReview rs ∧ validReview rc
    · right
      exact ⟨rs, rc, rfl, h.1, h.2, by simp [applyEvent, h]⟩
    · left
      simp [applyEvent, h]
  | synthesize fb =>
    left
    simp only [applyEvent]
    split <;> rfl
  | agentFail m => left; rfl
  | resume p =>
    left
    simp only [applyEvent]
    cases p.edited_draft with
    | none => rfl
    | some e => dsimp only; split <;> rfl

/-- Helper: a transition either leaves draft_history untouched or appends
exactly one element to it. -/
theorem applyEvent_history_cases (s : GraphState) (e : Event) :
    (applyEvent s e).draft_history = s.draft_history ∨
    ∃ d, (applyEvent s e).draft_history = s.draft_history ++ [d] := by
  cases e with
  | drafter d =>
    simp only [applyEvent]
    split
    · exact Or.inl rfl
    · split
      · exact Or.inr ⟨d, rfl⟩
      · exact Or.inr ⟨d, rfl⟩
  | review rs rc =>
    simp only [applyEvent]
    split <;> exact Or.inl rfl
  | synthesize fb =>
    simp only [applyEvent]
    split <;> exact Or.inl rfl
  | agentFail m => exact Or.inl rfl
  | resume p =>
    rcases p with ⟨ap, fb, ed⟩
    cases ed with
    | none => exact Or.inl rfl
    | some d =>
      simp only [applyEvent]
      split
      · exact Or.inl rfl
      · exact Or.inr ⟨d, rfl⟩

/-- Helper: in every reachable state, every review in the current batch
carries a score between 0 and 10. -/
theorem reachable_review_bounds {s : GraphState} (hs : Reachable s) :
    ∀ r ∈ s.reviews, 0 ≤ r.score ∧ r.score ≤ 10 := by
  induction hs with
  | init intent => intro r hr; simp [Spec.init] at hr
  | @step s' e _ ih =>
    rcases applyEvent_reviews_cases s' e with heq | ⟨rs, rc, _, hvs, hvc, heq⟩
    · rw [heq]; exact ih
    · rw [heq]
      intro r hr
      rcases List.mem_pair.mp hr with h | h
      · exact h ▸ hvs
      · exact h ▸ hvc

end Spec

/-- C1: for every state whose error field is non-empty, the routing
function returns halt, regardless of which other routing conditions are
simultaneously true, because the error check is evaluated first and first
match wins. -/
theorem C1_router_error_precedence (s : Spec.GraphState)
    (h : Spec.hasError s = true) :
    Spec.supervisor_router s = Spec.Route.halt := by
  simp [Spec.supervisor_router, h]

/-- Witness for C1: a concrete state with error set while a positive human
decision, maximal scores and a large iteration count are all
simultaneously present still routes to halt. -/
theorem C1_router_error_precedence_witness :
    Spec.hasError erroredState = true ∧
    Spec.supervisor_router erroredState = Spec.Route.halt :=
  ⟨by decide, C1_router_error_precedence erroredState (by decide)⟩

/-- C8: the payload built by the approve handler carries an edited_draft
field exactly when the edited text differs from the draft of the halted
state, so any transmitted edited_draft differs from the current draft. -/
theorem C8_approve_payload_iff (editedDraft feedback stateDraft : String) :
    ((Frontend.handleApprovePayload editedDraft feedback stateDraft).edited_draft.isSome
        = true ↔ editedDraft ≠ stateDraft) ∧
    (∀ x,
      (Frontend.handleApprovePayload editedDraft feedback stateDraft).edited_draft
          = some x →
      x ≠ stateDraft) := by
  by_cases h : editedDraft = stateDraft
  · constructor
    · simp [Frontend.handleApprovePayload, h]
    · intro x hx
      simp [Frontend.handleApprovePayload, h] at hx
  · constructor
    · simp [Frontend.handleApprovePayload, h]
    · intro x hx
      simp only [Frontend.handleApprovePayload, if_neg h] at hx
      simp only [Option.some.injEq] at hx
      exact hx ▸ h

/-- Witness for C8 at a concrete edited text differing from the draft. -/
theorem C8_approve_payload_iff_witness :
    (Frontend.handleApprovePayload "X" "fb" "D").edited_draft.isSome = true ∧
    ("X" : String) ≠ "D" :=
  ⟨(C8_approve_payload_iff "X" "fb" "D").1.mpr (by decide),
   (C8_approve_payload_iff "X" "fb" "D").2 "X" (by decide)⟩

/-- C9: every resume request the client sends carries a non-empty feedback
string; a blank box is replaced by a fixed sentence on both the approval
and the rejection path. -/
theorem C9_feedback_nonempty (editedDraft feedback stateDraft : String) :
    (Frontend.handleApprovePayload editedDraft feedback stateDraft).feedback ≠ "" ∧
    (Frontend.handleRejectPayload feedback).feedback ≠ "" := by
  by_cases h : feedback = "" <;>
    simp [Frontend.handleApprovePayload, Frontend.handleRejectPayload, h]

/-- C10: once a tick of the polling loop observes a response whose status
is completed, halted, error or rejected, the loop clears its interval and
issues no further state requests; the ticks after that observation
contribute nothing. -/
theorem C10_polling_stops (n : Nat) (pre rest : List Frontend.PollOutcome)
    (st : String) (h : Frontend.stopStatuses.contains st = true) :
    Frontend.pollRun n (pre ++ Frontend.PollOutcome.ok st :: rest) =
      Frontend.pollRun n (pre ++ [Frontend.PollOutcome.ok st]) := by
  induction pre generalizing n with
  | nil => simp only [List.nil_append, Frontend.pollRun, h, if_true]
  | cons o pre ih =>
    cases o with
    | ok st2 =>
      simp only [List.cons_append, Frontend.pollRun]
      by_cases h2 : Frontend.stopStatuses.contains st2 <;> simp [h2, ih]
    | failed =>
      simp only [List.cons_append, Frontend.pollRun]
      by_cases h2 : n + 1 > 10 <;> simp [h2, ih]

/-- Witness for C10: with a running response followed by a halted one, the
two further ticks in the schedule trigger no request. -/
theorem C10_polling_stops_witness :
    Frontend.pollRun 0
        [Frontend.PollOutcome.ok "running", Frontend.PollOutcome.ok "halted",
         Frontend.PollOutcome.ok "running", Frontend.PollOutcome.failed] =
      Frontend.pollRun 0
        [Frontend.PollOutcome.ok "running", Frontend.PollOutcome.ok "halted"] :=
  C10_polling_stops 0 [Frontend.PollOutcome.ok "running"]
    [Frontend.PollOutcome.ok "running", Frontend.PollOutcome.failed] "halted"
    (by decide)

/-- Counterexample for C2: at the sample halted state with draft D the
reviewer has edited the draft to X, which differs from D, and rejects;
the reject handler transmits no edited_draft, so the resume leaves
draft_history unchanged and the edited text X is not recorded in it. -/
theorem C2_edited_reject_counterexample :
    ("X" : String) ≠ sampleHalted.draft ∧
    (Frontend.handleRejectPayload "no").edited_draft = none ∧
    (Spec.applyEvent sampleHalted
        (Spec.Event.resume (Frontend.handleRejectPayload "no"))).draft_history
      = ["D"] ∧
    "X" ∉ (Spec.applyEvent sampleHalted
        (Spec.Event.resume (Frontend.handleRejectPayload "no"))).draft_history := by
  decide

/-- C2 amended: for every approval resume in which the edited text differs
from the current draft, the approve handler carries the edited draft and
the engine appends it to draft_history and sets it as the draft before
the decision is evaluated; the reject handler carries no edited draft, so
a rejection leaves draft_history unchanged. -/
theorem C2_amended_edited_resume (s : Spec.GraphState) (edited feedback : String)
    (h : edited ≠ s.draft) :
    (Frontend.handleApprovePayload edited feedback s.draft).edited_draft
        = some edited ∧
    (Spec.applyEvent s
        (Spec.Event.resume
          (Frontend.handleApprovePayload edited feedback s.draft))).draft_history
      = s.draft_history ++ [edited] ∧
    (Spec.applyEvent s
        (Spec.Event.resume
          (Frontend.handleApprovePayload edited feedback s.draft))).draft
      = edited ∧
    ∀ fb,
      (Spec.applyEvent s
          (Spec.Event.resume (Frontend.handleRejectPayload fb))).draft_history
        = s.draft_history := by
  refine ⟨?_, ?_, ?_, ?_⟩ <;>
    simp [Frontend.handleApprovePayload, Frontend.handleRejectPayload,
          Spec.applyEvent, h]

/-- Witness for the amended C2 at the sample halted state: editing the
draft from D to X and approving carries X and appends it to the history. -/
theorem C2_amended_edited_resume_witness :
    (Frontend.handleApprovePayload "X" "" sampleHalted.draft).edited_draft
        = some "X" ∧
    (Spec.applyEvent sampleHalted
        (Spec.Event.resume
          (Frontend.handleApprovePayload "X" "" sampleHalted.draft))).draft_history
      = sampleHalted.draft_history ++ ["X"] ∧
    (Spec.applyEvent sampleHalted
        (Spec.Event.resume
          (Frontend.handleApprovePayload "X" "" sampleHalted.draft))).draft
      = "X" ∧
    ∀ fb,
      (Spec.applyEvent sampleHalted
          (Spec.Event.resume (Frontend.handleRejectPayload fb))).draft_history
        = sampleHalted.draft_history :=
  C2_amended_edited_resume sampleHalted "X" "" (by decide)

/-- Counterexample for C3: the GraphState interface declared in the
frontend types module contains no human_decision field. -/
theorem C3_no_human_decision_counterexample :
    "human_decision" ∉ Frontend.GraphState.fieldNames := by
  decide

/-- C3 amended: the GraphState record carries draft, draft_history,
reviews, scores, iteration_count, supervisor_feedback, user_intent,
optional error and optional metadata, and no human_decision field; the
shape approved, feedback, optional edited_draft exists only as the resume
request payload, not as a state field. -/
theorem C3_amended_graphstate_fields :
    Frontend.GraphState.fieldNames =
      ["draft", "draft_history", "reviews", "scores", "iteration_count",
       "supervisor_feedback", "user_intent", "error", "metadata"] ∧
    "human_decision" ∉ Frontend.GraphState.fieldNames ∧
    ResumePayload.fieldNames = ["approved", "feedback", "edited_draft"] := by
  decide

/-- C4: an intent whose trimmed text is empty issues no request, so no
ThreadRecord and no thread identifier come into existence; invoking the
engine with the empty intent fails with InvalidInput and creates nothing,
and for an intent with non-empty trimmed text the submitted intent is the
input with surrounding whitespace removed. -/
theorem C4_invoke_validation (intent newId : String) (now : Nat)
    (store : List Spec.ThreadRecord) :
    (Frontend.jsTrim intent = "" → Frontend.handleInvokeRequest intent = none) ∧
    Spec.invoke "" newId now store = Except.error Spec.ApiError.invalidInput ∧
    (Frontend.jsTrim intent ≠ "" →
      Frontend.handleInvokeRequest intent = some (Frontend.jsTrim intent)) := by
  refine ⟨fun h => ?_, ?_, fun h => ?_⟩
  · simp [Frontend.handleInvokeRequest, h]
  · simp [Spec.invoke]
  · simp [Frontend.handleInvokeRequest, h]

/-- Witness for C4 at concrete inputs: a whitespace intent issues no
request, a padded intent is submitted with its trimmed text, and the
empty invoke fails with InvalidInput. -/
theorem C4_invoke_validation_witness :
    Frontend.handleInvokeRequest "   " = none ∧
    Frontend.handleInvokeRequest " a " = some (Frontend.jsTrim " a ") ∧
    Frontend.jsTrim " a " = "a" ∧
    Spec.invoke "" "t1" 0 [] = Except.error Spec.ApiError.invalidInput :=
  ⟨(C4_invoke_validation "   " "t1" 0 []).1 (by decide),
   (C4_invoke_validation " a " "t1" 0 []).2.2 (by decide),
   by decide,
   (C4_invoke_validation "x" "t1" 0 []).2.1⟩

/-- Counterexample for C5: after a first draft and a resume carrying an
edited draft, the edited draft is appended to draft_history while
iteration_count is untouched, so this reachable state has a draft, yet
its history length is 2 while 1 plus iteration_count is 1. -/
theorem C5_history_length_counterexample :
    Spec.Reachable editedResumeState ∧
    editedResumeState.draft ≠ "" ∧
    editedResumeState.draft_history.length
      ≠ 1 + editedResumeState.iteration_count :=
  ⟨Spec.Reachable.step _ (Spec.Reachable.step _ (Spec.Reachable.init "i")),
   by decide, by decide⟩

/-- C5 amended: draft_history length is non-decreasing under every
transition; the initial state satisfies the draft history invariant, and
every transition that is not an effective human edit preserves it, so
that once a draft exists the history length equals 1 plus iteration_count
and the draft is the last element of the history. A resume carrying an
edited draft differing from the current draft appends to the history
without incrementing the counter, as the counterexample records. -/
theorem C5_amended_history_invariant :
    (∀ (s : Spec.GraphState) (e : Spec.Event),
      s.draft_history.length ≤ (Spec.applyEvent s e).draft_history.length) ∧
    (∀ intent, Spec.histInv (Spec.init intent)) ∧
    (∀ (s : Spec.GraphState) (e : Spec.Event),
      Spec.histInv s → Spec.effEdit s e = false →
      Spec.histInv (Spec.applyEvent s e)) := by
  refine ⟨?_, ?_, ?_⟩
  · intro s e
    rcases Spec.applyEvent_history_cases s e with h | ⟨d, h⟩
    · rw [h]
    · rw [h]
      simp
  · intro intent
    constructor
    · intro _
      exact ⟨rfl, rfl⟩
    · intro h
      exact absurd rfl h
  · intro s e h1 h2
    cases e with
    | drafter d =>
      by_cases hd : d = ""
      · have hstate : Spec.applyEvent s (Spec.Event.drafter d) =
            { s with error := some "draft generation failed" } := by
          simp [Spec.applyEvent, hd]
        rw [hstate]
        exact h1
      · by_cases hs : s.draft = ""
        · have hstate : Spec.applyEvent s (Spec.Event.drafter d) =
              { s with draft := d, draft_history := s.draft_history ++ [d] } := by
            simp [Spec.applyEvent, hd, hs]
          rw [hstate]
          obtain ⟨hh, hc⟩ := h1.1 hs
          refine ⟨fun hcontr => absurd hcontr hd, fun _ => ?_⟩
          rw [hh, hc]
          exact ⟨rfl, rfl⟩
        · have hstate : Spec.applyEvent s (Spec.Event.drafter d) =
              { s with draft := d, draft_history := s.draft_history ++ [d],
                       iteration_count := s.iteration_count + 1 } := by
            simp [Spec.applyEvent, hd, hs]
          rw [hstate]
          obtain ⟨hl, hlast⟩ := h1.2 hs
          refine ⟨fun hcontr => absurd hcontr hd, fun _ => ⟨?_, ?_⟩⟩
          · show (s.draft_history ++ [d]).length = 1 + (s.iteration_count + 1)
            rw [List.length_append, hl, List.length_singleton]
            omega
          · show (s.draft_history ++ [d]).getLast? = some d
            exact List.getLast?_concat _
    | review rs rc =>
      simp only [Spec.applyEvent]
      split <;> exact h1
    | synthesize fb =>
      simp only [Spec.applyEvent]
      split <;> exact h1
    | agentFail m => exact h1
    | resume p =>
      rcases p with ⟨ap, fb, ed⟩
      cases ed with
      | none => exact h1
      | some d =>
        have hd : d = s.draft := by
          by_contra hne
          simp [Spec.effEdit, hne] at h2
        subst hd
        simp only [Spec.applyEvent, if_pos rfl]
        exact h1

/-- Witness for the amended C5: the preservation part applied to the
initial state and a first draft, whose hypotheses are discharged by the
initial-state part of the same theorem and by computation. -/
theorem C5_amended_history_invariant_witness :
    Spec.histInv (Spec.applyEvent (Spec.init "i") (Spec.Event.drafter "d")) :=
  C5_amended_history_invariant.2.2 (Spec.init "i") (Spec.Event.drafter "d")
    (C5_amended_history_invariant.2.1 "i") (by decide)

/-- C6: the task list assembled by fetchTasks is ordered by descending
creation time: for every pair of an earlier and a later position in the
returned list, the earlier creation time is at least the later one. -/
theorem C6_tasks_sorted_descending (dateTime : String → Nat)
    (entries : List (String × Frontend.RawTask)) :
    (Frontend.fetchTasks dateTime entries).Pairwise
      (Frontend.taskDescending dateTime) := by
  haveI : IsTotal Frontend.Task (Frontend.taskDescending dateTime) :=
    ⟨fun a b => Nat.le_total (dateTime b.created_at) (dateTime a.created_at)⟩
  haveI : IsTrans Frontend.Task (Frontend.taskDescending dateTime) :=
    ⟨fun _ _ _ hab hbc => Nat.le_trans hbc hab⟩
  exact List.sorted_insertionSort (Frontend.taskDescending dateTime) _

/-- C7: the Review record has exactly the fields agent, score, notes and
reasoning; in every reachable engine state every review carries a score
between 0 and 10; and no transition mutates an individual review, since
the review list is either left untouched or replaced wholesale by the
fresh batch of a review event. -/
theorem C7_review_shape :
    Review.fieldNames.Perm ["agent", "score", "notes", "reasoning"] ∧
    (∀ s : Spec.GraphState, Spec.Reachable s →
      ∀ r ∈ s.reviews, 0 ≤ r.score ∧ r.score ≤ 10) ∧
    (∀ (s : Spec.GraphState) (e : Spec.Event),
      (Spec.applyEvent s e).reviews = s.reviews ∨
      ∃ rs rc, e = Spec.Event.review rs rc ∧
        (Spec.applyEvent s e).reviews = [rs, rc]) := by
  refine ⟨by decide, fun s hs => Spec.reachable_review_bounds hs, fun s e => ?_⟩
  rcases Spec.applyEvent_reviews_cases s e with h | ⟨rs, rc, hev, _, _, heq⟩
  · exact Or.inl h
  · exact Or.inr ⟨rs, rc, hev, heq⟩

/-- Witness for C7: the safety review of the concrete reachable reviewed
state has its score within 0 and 10. -/
theorem C7_review_shape_witness :
    0 ≤ (Review.mk "SafetyGuardian" "safe" 9 "ok").score ∧
    (Review.mk "SafetyGuardian" "safe" 9 "ok").score ≤ 10 :=
  C7_review_shape.2.1 reviewedState
    (Spec.Reachable.step _ (Spec.Reachable.step _ (Spec.Reachable.init "i")))
    (Review.mk "SafetyGuardian" "safe" 9 "ok") (by decide)

end Cerina
